import Mathlib

/-!
Verification development for the Daily Planner web application
(`script.js`).  The persistence layer, the load-time shape
normalization, the debounced writer and the todo/habit operations are
embedded shallowly: JSON values become the inductive `JVal`,
`localStorage` and the remote document store become association lists
from string keys to `JVal` (the `JSON.stringify`/`JSON.parse`
round-trip on JSON-representable values is modelled as the identity,
so stores hold `JVal`s directly), and the nondeterministic outcome of
a remote call (throw / succeed) is an explicit boolean parameter.
All functions are total, mirroring the fact that every fallible code
path in the source is wrapped in try/catch that swallows the error.
-/

namespace DailyPlanner

/-- JSON values as produced by `JSON.parse`.  Objects are ordered
association lists (JS objects preserve insertion order, and parsed
JSON has no duplicate keys).  The planner only ever stores integral
numbers (`water`, `order`), so numbers are modelled as `Int`. -/
inductive JVal where
  | null
  | bool (b : Bool)
  | num (n : Int)
  | str (s : String)
  | arr (elems : List JVal)
  | obj (fields : List (String × JVal))

/-- JS truthiness of a value (`data || getEmptyPlan()` etc.). -/
def truthy : JVal → Bool
  | .null => false
  | .bool b => b
  | .num n => n != 0
  | .str s => s != ""
  | .arr _ => true
  | .obj _ => true

/-- Whether `typeof v === 'object'` holds in JS: true for objects,
arrays and `null`. -/
def typeofIsObject : JVal → Bool
  | .null => true
  | .arr _ => true
  | .obj _ => true
  | _ => false

/-- `Array.isArray`. -/
def isArray : JVal → Bool
  | .arr _ => true
  | _ => false

/-- First-match lookup in an association list (JS object property
read / `localStorage.getItem`). -/
def lookupAssoc {α : Type} : List (String × α) → String → Option α
  | [], _ => none
  | (k, v) :: rest, key => if k = key then some v else lookupAssoc rest key

/-- Update-or-append in an association list (JS object property
write / `localStorage.setItem`): replaces the value in place if the
key exists, otherwise appends the binding. -/
def setAssoc {α : Type} : List (String × α) → String → α → List (String × α)
  | [], key, v => [(key, v)]
  | (k, w) :: rest, key, v =>
      if k = key then (k, v) :: rest else (k, w) :: setAssoc rest key v

/-- Property read on a `JVal`: `undefined` (here `none`) on
non-objects and missing keys. -/
def getField : JVal → String → Option JVal
  | .obj fs, k => lookupAssoc fs k
  | _, _ => none

/-- Property write on a `JVal`.  Writes to non-objects are dropped,
matching sloppy-mode JS on primitives; the planner only writes fields
of object-shaped plans. -/
def setField : JVal → String → JVal → JVal
  | .obj fs, k, v => .obj (setAssoc fs k v)
  | w, _, _ => w

/-!  ## The storage adapter (`storage` object, script.js lines 101-288) -/

/-- State of the two stores plus the remote-session flags of the
`storage` adapter (`_firebaseReady`, `_userId`, `_projectId`, and the
presence of `window.firebase`). -/
structure StorageState where
  localItems : List (String × JVal)
  remoteItems : List (String × JVal)
  firebaseReady : Bool
  userId : Option String
  projectId : String
  hasWindowFirebase : Bool

/-- A remote session is active when `this._firebaseReady && this._userId
&& window.firebase` (the guard of both `storage.get` and
`storage.set`). -/
def remoteActive (st : StorageState) : Bool :=
  st.firebaseReady && st.userId.isSome && st.hasWindowFirebase

/-- Local key format `"page:dateStr"`. -/
def localKey (page dateStr : String) : String :=
  page ++ ":" ++ dateStr

/-- Remote path `projects/{projectId}/users/{userId}/{page}/{dateStr}`. -/
def remotePath (st : StorageState) (page dateStr : String) : String :=
  "projects/" ++ st.projectId ++ "/users/" ++ st.userId.getD "" ++ "/"
    ++ page ++ "/" ++ dateStr

/-- Own-enumerable fields contributed by spreading a value into an
object literal (`{...data, ...}`). -/
def jsSpreadFields : JVal → List (String × JVal)
  | .obj fs => fs
  | .arr l => (l.enum).map (fun p => (toString p.1, p.2))
  | .str s => (s.toList.enum).map (fun p => (toString p.1, JVal.str (String.mk [p.2])))
  | _ => []

/-- Payload written to the remote store by `storage.set`:
`{...data, lastUpdated, userId, projectId, page}`. -/
def remotePayload (st : StorageState) (data : JVal) (page nowIso : String) : JVal :=
  .obj (setAssoc (setAssoc (setAssoc (setAssoc (jsSpreadFields data)
    "lastUpdated" (.str nowIso))
    "userId" (.str (st.userId.getD "")))
    "projectId" (.str st.projectId))
    "page" (.str page))

/-- `storage.set(dateStr, data, page)`.  The local write happens
first, unconditionally.  If a remote session is active the remote
write is attempted; `remoteWriteFails` models that attempt throwing,
in which case the catch block swallows the error and the already
completed local write stands.  The function is total: no error ever
reaches the caller. -/
def storageSet (st : StorageState) (dateStr : String) (data : JVal)
    (page nowIso : String) (remoteWriteFails : Bool) : StorageState :=
  let st1 := { st with localItems := setAssoc st.localItems (localKey page dateStr) data }
  if remoteActive st1 then
    if remoteWriteFails then st1
    else
      let payload := remotePayload st1 data page nowIso
      { st1 with remoteItems := setAssoc st1.remoteItems (remotePath st1 page dateStr) payload }
  else st1

/-- `storage.get(dateStr, page)`.  With an active remote session and
no remote error, a remote hit is returned and a remote miss falls
through to local storage; without a session, or when the remote read
throws (`remoteReadFails`, caught by the catch block), the local
store is read directly. -/
def storageGet (st : StorageState) (dateStr page : String)
    (remoteReadFails : Bool) : Option JVal :=
  if remoteActive st && !remoteReadFails then
    match lookupAssoc st.remoteItems (remotePath st page dateStr) with
    | some v => some v
    | none => lookupAssoc st.localItems (localKey page dateStr)
  else
    lookupAssoc st.localItems (localKey page dateStr)

/-!  ## Association-list lemmas -/

theorem lookupAssoc_setAssoc_self {α : Type} (l : List (String × α)) (k : String) (v : α) :
    lookupAssoc (setAssoc l k v) k = some v := by
  induction l with
  | nil => simp [setAssoc, lookupAssoc]
  | cons hd tl ih =>
      by_cases h : hd.1 = k
      · simp [setAssoc, lookupAssoc, h]
      · simp [setAssoc, lookupAssoc, h, ih]

theorem lookupAssoc_setAssoc_ne {α : Type} (l : List (String × α)) (k k' : String) (v : α)
    (hne : k ≠ k') : lookupAssoc (setAssoc l k v) k' = lookupAssoc l k' := by
  induction l with
  | nil => simp [setAssoc, lookupAssoc, hne]
  | cons hd tl ih =>
      obtain ⟨k2, w⟩ := hd
      by_cases h : k2 = k
      · simp [setAssoc, lookupAssoc, h, hne]
      · by_cases h' : k2 = k'
        · simp [setAssoc, lookupAssoc, h, h', Ne.symm hne]
        · simp [setAssoc, lookupAssoc, h, h', ih]

theorem storageSet_localItems (st : StorageState) (dateStr : String) (data : JVal)
    (page nowIso : String) (rw : Bool) :
    (storageSet st dateStr data page nowIso rw).localItems
      = setAssoc st.localItems (localKey page dateStr) data := by
  unfold storageSet
  by_cases h : remoteActive { st with localItems := setAssoc st.localItems (localKey page dateStr) data } = true
  · cases rw <;> simp [h]
  · simp at h
    cases rw <;> simp [h]

theorem storageSet_flags (st : StorageState) (dateStr : String) (data : JVal)
    (page nowIso : String) (rw : Bool) :
    (storageSet st dateStr data page nowIso rw).firebaseReady = st.firebaseReady
    ∧ (storageSet st dateStr data page nowIso rw).userId = st.userId
    ∧ (storageSet st dateStr data page nowIso rw).hasWindowFirebase = st.hasWindowFirebase := by
  unfold storageSet
  by_cases h : remoteActive { st with localItems := setAssoc st.localItems (localKey page dateStr) data } = true
  · cases rw <;> simp [h]
  · simp at h
    cases rw <;> simp [h]

/-- C1: with no remote session active, `storage.set(D, S, page)` followed by
`storage.get(D, page)` falls through to local storage and returns the very
value `S` that was saved (the `JSON.stringify`/`JSON.parse` round-trip on
JSON-representable values is the identity in this model). -/
theorem storage_set_get_roundtrip (st : StorageState) (dateStr page : String)
    (S : JVal) (nowIso : String) (rwSet rwGet : Bool)
    (hsession : remoteActive st = false) :
    storageGet (storageSet st dateStr S page nowIso rwSet) dateStr page rwGet = some S := by
  have hl := storageSet_localItems st dateStr S page nowIso rwSet
  have hf := storageSet_flags st dateStr S page nowIso rwSet
  have hact : remoteActive (storageSet st dateStr S page nowIso rwSet) = false := by
    unfold remoteActive at hsession ⊢
    rw [hf.1, hf.2.1, hf.2.2]
    exact hsession
  unfold storageGet
  rw [hact, hl]
  simp [lookupAssoc_setAssoc_self]

/-- C1 witness. -/
theorem storage_set_get_roundtrip_witness :
    remoteActive ⟨[], [], false, none, "daily-planner", false⟩ = false
    ∧ storageGet (storageSet ⟨[], [], false, none, "daily-planner", false⟩
        "2024-01-02" (JVal.num 7) "planner" "now" false) "2024-01-02" "planner" false
      = some (JVal.num 7) := by
  refine ⟨rfl, ?_⟩
  exact storage_set_get_roundtrip ⟨[], [], false, none, "daily-planner", false⟩
    "2024-01-02" "planner" (JVal.num 7) "now" false false rfl

/-- C6: during `storage.set` the local write happens first and does not
depend on the remote outcome: whether or not the remote write throws
(`rw`), the resulting local store is exactly the input local store with
the new binding, so a failed remote write is swallowed without rolling
back the local write, and a local read of the same key immediately
afterwards returns the newly saved value.  `storageSet` returning a
plain `StorageState` (never an error) reflects the catch block that
keeps every remote failure away from the caller. -/
theorem storage_set_remote_failure_resilience (st : StorageState)
    (dateStr page : String) (S : JVal) (nowIso : String) :
    (storageSet st dateStr S page nowIso true).localItems
        = setAssoc st.localItems (localKey page dateStr) S
    ∧ (∀ rw : Bool, (storageSet st dateStr S page nowIso rw).localItems
        = (storageSet st dateStr S page nowIso false).localItems)
    ∧ lookupAssoc (storageSet st dateStr S page nowIso true).localItems
        (localKey page dateStr) = some S := by
  refine ⟨storageSet_localItems st dateStr S page nowIso true, ?_, ?_⟩
  · intro rw
    rw [storageSet_localItems, storageSet_localItems]
  · rw [storageSet_localItems]
    exact lookupAssoc_setAssoc_self _ _ _

/-!  ## The debounced writer (`debounce`, script.js lines 59-69)

`debounce(func, wait)` keeps a single pending timeout.  Each trigger
clears the pending timeout (if it has not fired yet) and schedules a
new one at `now + wait`.  The model processes a strictly ordered list
of trigger times: a pending deadline `d` has fired by the time a
trigger at `t` arrives iff `d ≤ t`; a trailing pending timeout fires
once input stops.  `debounceFireTimes` returns the times at which the
wrapped function actually runs. -/

/-- Run the debounce timer over the remaining trigger times, given the
currently pending deadline (if any). -/
def debFires (wait : Nat) : Option Nat → List Nat → List Nat
  | pending, [] =>
      match pending with
      | some d => [d]
      | none => []
  | pending, t :: ts =>
      match pending with
      | some d =>
          if d ≤ t then d :: debFires wait (some (t + wait)) ts
          else debFires wait (some (t + wait)) ts
      | none => debFires wait (some (t + wait)) ts

/-- Fire times produced by a debounced function for a time-ordered
list of triggers, starting with no pending timeout. -/
def debounceFireTimes (wait : Nat) (ts : List Nat) : List Nat :=
  debFires wait none ts

/-- Quiet interval used for the planner's debounced save:
`debounce(this.savePlan.bind(this), 300)`. -/
def saveDebounceWait : Nat := 300

theorem debFires_coalesce (wait : Nat) :
    ∀ (ts : List Nat) (t : Nat), List.Chain' (fun a b => a ≤ b ∧ b < a + wait) (t :: ts) →
      debFires wait (some (t + wait)) ts = [(t :: ts).getLast (by simp) + wait] := by
  intro ts
  induction ts with
  | nil => intro t _; simp [debFires]
  | cons t' ts' ih =>
      intro t hchain
      have hlt : t' < t + wait := (List.chain'_cons.mp hchain).1.2
      have htail := (List.chain'_cons.mp hchain).2
      have hnofire : ¬ t + wait ≤ t' := Nat.not_le.mpr hlt
      simp only [debFires, if_neg hnofire]
      rw [ih t' htail]
      simp [List.getLast_cons]

theorem debFires_spaced (wait : Nat) :
    ∀ (ts : List Nat) (t : Nat), List.Chain' (fun a b => a + wait < b) (t :: ts) →
      debFires wait (some (t + wait)) ts = (t :: ts).map (fun x => x + wait) := by
  intro ts
  induction ts with
  | nil => intro t _; simp [debFires]
  | cons t' ts' ih =>
      intro t hchain
      have hlt : t + wait < t' := (List.chain'_cons.mp hchain).1
      have htail := (List.chain'_cons.mp hchain).2
      have hfire : t + wait ≤ t' := Nat.le_of_lt hlt
      simp only [debFires, if_pos hfire]
      rw [ih t' htail]
      simp

/-- C7: for the trailing-edge debounce wrapper, a time-ordered list of
triggers in which each trigger arrives strictly less than `wait` after
the previous one yields exactly one underlying call, fired at
`last trigger + wait`; triggers each spaced strictly beyond `wait`
yield exactly one call per trigger (at `wait` after each). -/
theorem debounce_coalescing (wait : Nat) (ts : List Nat) (l : Nat) :
    (List.Chain' (fun a b => a ≤ b ∧ b < a + wait) ts → ts.getLast? = some l →
        debounceFireTimes wait ts = [l + wait])
    ∧ (List.Chain' (fun a b => a + wait < b) ts →
        debounceFireTimes wait ts = ts.map (fun x => x + wait)) := by
  constructor
  · intro hchain hlast
    cases ts with
    | nil => simp at hlast
    | cons t ts' =>
        unfold debounceFireTimes
        simp only [debFires]
        rw [debFires_coalesce wait ts' t hchain]
        have : (t :: ts').getLast (by simp) = l := by
          have := List.getLast?_eq_getLast (t :: ts') (by simp)
          rw [this] at hlast
          exact Option.some.inj hlast
        rw [this]
  · intro hchain
    cases ts with
    | nil => simp [debounceFireTimes, debFires]
    | cons t ts' =>
        unfold debounceFireTimes
        simp only [debFires]
        exact debFires_spaced wait ts' t hchain

/-- C7 witness: three rapid triggers (gaps 100 < 300) coalesce into a
single save at 200 + 300; three spread-out triggers (gaps 400 > 300)
produce three saves. -/
theorem debounce_coalescing_witness :
    debounceFireTimes saveDebounceWait [0, 100, 200] = [500]
    ∧ debounceFireTimes saveDebounceWait [0, 400, 800] = [300, 700, 1100] := by
  constructor
  · exact (debounce_coalescing saveDebounceWait [0, 100, 200] 200).1
      (by simp [List.chain'_cons, saveDebounceWait]) (by decide)
  · exact (debounce_coalescing saveDebounceWait [0, 400, 800] 0).2
      (by simp [List.chain'_cons, saveDebounceWait])

/-!  ## The plan data model and `loadPlan`
(`getEmptyPlan` script.js 297-316, `PlannerManager.loadPlan` 336-373,
`renderTopThree` state effect 447-449) -/

/-- The 18 fixed hourly schedule keys. -/
def hourKeys : List String :=
  ["06:00", "07:00", "08:00", "09:00", "10:00", "11:00",
   "12:00", "13:00", "14:00", "15:00", "16:00", "17:00",
   "18:00", "19:00", "20:00", "21:00", "22:00", "23:00"]

/-- The schedule literal used both in `getEmptyPlan` and in the
schedule replacement inside `loadPlan`: all 18 hour keys mapped to the
empty string. -/
def scheduleTemplate : JVal :=
  .obj (hourKeys.map (fun k => (k, .str "")))

/-- `getEmptyPlan()`. -/
def getEmptyPlan : JVal :=
  .obj [("topThree", .arr []),
        ("todos", .arr []),
        ("schedule", scheduleTemplate),
        ("notes", .str ""),
        ("meals", .obj [("breakfast", .str ""), ("lunch", .str ""), ("dinner", .str "")]),
        ("water", .num 0),
        ("habits", .arr [])]

/-- One `if (!Array.isArray(currentPlan.k)) currentPlan.k = [];`
normalization step of `loadPlan`. -/
def ensureArrayField (p : JVal) (k : String) : JVal :=
  match getField p k with
  | some v => if isArray v then p else setField p k (.arr [])
  | none => setField p k (.arr [])

/-- The `if (!currentPlan.schedule || typeof currentPlan.schedule !==
'object') currentPlan.schedule = {...}` step of `loadPlan`: the
schedule is replaced by the full template exactly when it is falsy or
not of JS type `'object'` (arrays and objects both are). -/
def ensureScheduleObj (p : JVal) : JVal :=
  match getField p "schedule" with
  | some v => if truthy v && typeofIsObject v then p else setField p "schedule" scheduleTemplate
  | none => setField p "schedule" scheduleTemplate

/-- Shape normalization applied by `loadPlan` (script.js 341-365), in
source order: habits, todos, topThree, then schedule. -/
def normalizeShape (p : JVal) : JVal :=
  ensureScheduleObj (ensureArrayField (ensureArrayField (ensureArrayField p "habits") "todos") "topThree")

/-- A fresh top-three slot `{ id: generateId(), text: '', done: false }`;
`gen` models the stream of ids produced by `generateId`. -/
def freshSlot (gen : Nat → String) (i : Nat) : JVal :=
  .obj [("id", .str (gen i)), ("text", .str ""), ("done", .bool false)]

/-- State effect of `renderTopThree` on `currentPlan.topThree` (447-449):
for i = 0,1,2 the slot `topThree[i] || fresh` is written back, so a
missing or falsy slot is synthesized; entries past index 2 are kept. -/
def padTopThree (gen : Nat → String) (l : List JVal) : List JVal :=
  (List.range 3).map (fun i =>
    match l[i]? with
    | some v => if truthy v then v else freshSlot gen i
    | none => freshSlot gen i) ++ l.drop 3

/-- State effect of `renderTopThree` on the whole plan. -/
def renderTopThreeState (gen : Nat → String) (p : JVal) : JVal :=
  match getField p "topThree" with
  | some (.arr l) => setField p "topThree" (.arr (padTopThree gen l))
  | _ => p

/-- `PlannerManager.loadPlan`: the stored value (`data`, `none` when
neither store has the key) falls back to `getEmptyPlan()` when absent
or falsy, is shape-normalized, and then `renderAll` runs; its only
effect on the plan state is the `renderTopThree` slot synthesis.  A
plan that is not an object makes the render step throw on property
access, which the surrounding try/catch turns into a reset to the
empty plan (369-371).  The function is total: `loadPlan` in the
source never lets an exception escape. -/
def loadPlan (data : Option JVal) (gen : Nat → String) : JVal :=
  let plan := match data with
    | some v => if truthy v then v else getEmptyPlan
    | none => getEmptyPlan
  match plan with
  | .obj fs => renderTopThreeState gen (normalizeShape (.obj fs))
  | _ => renderTopThreeState gen getEmptyPlan

/-- C2: loading a date with no stored value yields the empty plan as
the claim describes it: `topThree` is exactly three synthesized slots,
each with a fresh id, empty text and `done: false`; the schedule is
exactly the 18 hour keys (no duplicates) all mapped to the empty
string; `water` is 0 and `todos` and `habits` are empty arrays. -/
theorem load_never_saved_empty_plan (gen : Nat → String) :
    getField (loadPlan none gen) "topThree"
        = some (.arr [freshSlot gen 0, freshSlot gen 1, freshSlot gen 2])
    ∧ getField (loadPlan none gen) "schedule"
        = some (.obj (hourKeys.map (fun k => (k, .str ""))))
    ∧ hourKeys.length = 18
    ∧ hourKeys.Nodup
    ∧ getField (loadPlan none gen) "water" = some (.num 0)
    ∧ getField (loadPlan none gen) "todos" = some (.arr [])
    ∧ getField (loadPlan none gen) "habits" = some (.arr []) := by
  refine ⟨rfl, rfl, rfl, by decide, rfl, rfl, rfl⟩

/-- Whether a value is a JS object proper. -/
def isObj : JVal → Bool
  | .obj _ => true
  | _ => false

/-- Whether an optional stored field fails the `Array.isArray` check
(missing counts as failing, as `Array.isArray(undefined)` is false). -/
def notArrayOpt : Option JVal → Bool
  | some v => !isArray v
  | none => true

/-- Whether an optional stored schedule passes the
`schedule && typeof schedule === 'object'` check. -/
def goodSchedule : Option JVal → Bool
  | some v => truthy v && typeofIsObject v
  | none => false

theorem getField_ensureArrayField_ne (p : JVal) (k k' : String) (h : k' ≠ k) :
    getField (ensureArrayField p k) k' = getField p k' := by
  cases p with
  | obj fs =>
      unfold ensureArrayField
      cases hv : getField (.obj fs) k with
      | none => simp [getField, setField, lookupAssoc_setAssoc_ne _ _ _ _ (Ne.symm h)]
      | some v =>
          by_cases ha : isArray v = true
          · simp [ha]
          · simp only [Bool.not_eq_true] at ha
            simp [ha, getField, setField, lookupAssoc_setAssoc_ne _ _ _ _ (Ne.symm h)]
  | null => rfl
  | bool b => rfl
  | num n => rfl
  | str s => rfl
  | arr l => rfl

theorem getField_ensureScheduleObj_ne (p : JVal) (k' : String) (h : k' ≠ "schedule") :
    getField (ensureScheduleObj p) k' = getField p k' := by
  cases p with
  | obj fs =>
      unfold ensureScheduleObj
      cases hv : getField (.obj fs) "schedule" with
      | none => simp [getField, setField, lookupAssoc_setAssoc_ne _ _ _ _ (Ne.symm h)]
      | some v =>
          by_cases hg : (truthy v && typeofIsObject v) = true
          · simp [hg]
          · simp only [Bool.not_eq_true] at hg
            simp [hg, getField, setField, lookupAssoc_setAssoc_ne _ _ _ _ (Ne.symm h)]
  | null => rfl
  | bool b => rfl
  | num n => rfl
  | str s => rfl
  | arr l => rfl

theorem getField_renderTopThreeState_ne (gen : Nat → String) (p : JVal) (k' : String)
    (h : k' ≠ "topThree") :
    getField (renderTopThreeState gen p) k' = getField p k' := by
  cases p with
  | obj fs =>
      unfold renderTopThreeState
      cases hv : getField (.obj fs) "topThree" with
      | none => simp [hv]
      | some v =>
          cases v with
          | arr l => simp [hv, getField, setField, lookupAssoc_setAssoc_ne _ _ _ _ (Ne.symm h)]
          | null => simp [hv]
          | bool b => simp [hv]
          | num n => simp [hv]
          | str s => simp [hv]
          | obj fs2 => simp [hv]
  | null => rfl
  | bool b => rfl
  | num n => rfl
  | str s => rfl
  | arr l => rfl

theorem isObj_ensureArrayField (p : JVal) (k : String) (h : isObj p = true) :
    isObj (ensureArrayField p k) = true := by
  cases p with
  | obj fs =>
      unfold ensureArrayField
      cases hv : getField (.obj fs) k with
      | none => simp [setField, isObj]
      | some v =>
          by_cases ha : isArray v = true

          · simpa [ha] using h
          · simp only [Bool.not_eq_true] at ha
            simp [ha, setField, isObj]
  | null => exact absurd h (by simp [isObj])
  | bool b => exact absurd h (by simp [isObj])
  | num n => exact absurd h (by simp [isObj])
  | str s => exact absurd h (by simp [isObj])
  | arr l => exact absurd h (by simp [isObj])

theorem getField_ensureArrayField_not_array (p : JVal) (k : String)
    (hobj : isObj p = true) (h : notArrayOpt (getField p k) = true) :
    getField (ensureArrayField p k) k = some (.arr []) := by
  cases p with
  | obj fs =>
      unfold ensureArrayField
      cases hv : getField (.obj fs) k with
      | none => simp [getField, setField, lookupAssoc_setAssoc_self]
      | some v =>
          rw [hv] at h
          simp only [notArrayOpt, Bool.not_eq_true'] at h
          simp [h, getField, setField, lookupAssoc_setAssoc_self]
  | null => exact absurd hobj (by simp [isObj])
  | bool b => exact absurd hobj (by simp [isObj])
  | num n => exact absurd hobj (by simp [isObj])
  | str s => exact absurd hobj (by simp [isObj])
  | arr l => exact absurd hobj (by simp [isObj])

theorem ensureArrayField_array (p : JVal) (k : String) (v : JVal)
    (hv : getField p k = some v) (ha : isArray v = true) :
    ensureArrayField p k = p := by
  unfold ensureArrayField
  rw [hv]
  simp [ha]

theorem ensureScheduleObj_good (p : JVal) (v : JVal)
    (hv : getField p "schedule" = some v) (ht : truthy v = true)
    (hto : typeofIsObject v = true) : ensureScheduleObj p = p := by
  unfold ensureScheduleObj
  rw [hv]
  simp [ht, hto]

theorem getField_ensureScheduleObj_bad (p : JVal)
    (hobj : isObj p = true) (h : goodSchedule (getField p "schedule") = false) :
    getField (ensureScheduleObj p) "schedule" = some scheduleTemplate := by
  cases p with
  | obj fs =>
      unfold ensureScheduleObj
      cases hv : getField (.obj fs) "schedule" with
      | none => simp [getField, setField, lookupAssoc_setAssoc_self]
      | some v =>
          rw [hv] at h
          simp only [goodSchedule] at h
          simp [h, getField, setField, lookupAssoc_setAssoc_self]
  | null => exact absurd hobj (by simp [isObj])
  | bool b => exact absurd hobj (by simp [isObj])
  | num n => exact absurd hobj (by simp [isObj])
  | str s => exact absurd hobj (by simp [isObj])
  | arr l => exact absurd hobj (by simp [isObj])

theorem loadPlan_obj (fs : List (String × JVal)) (gen : Nat → String) :
    loadPlan (some (.obj fs)) gen = renderTopThreeState gen (normalizeShape (.obj fs)) := rfl

/-- A concrete id stream standing in for `generateId`. -/
def genDefault : Nat → String := fun n => "id" ++ toString n

/-- A stored plan whose schedule object carries only one of the 18
hour keys. -/
def sparseSchedulePlan : JVal := .obj [("schedule", .obj [("06:00", .str "x")])]

/-- Whether a plan's schedule has all 18 hour keys present. -/
def scheduleComplete (p : JVal) : Bool :=
  match getField p "schedule" with
  | some (.obj fs2) => hourKeys.all (fun k => (lookupAssoc fs2 k).isSome)
  | _ => false

/-- C4 counterexample: a stored value whose schedule object has only
the key `06:00` comes back from `loadPlan` with that schedule kept
exactly as stored — the other 17 hour keys are NOT filled in, so the
loaded schedule does not contain all 18 fixed hour keys. -/
theorem load_schedule_missing_keys_counterexample :
    getField (loadPlan (some sparseSchedulePlan) genDefault) "schedule"
      = some (.obj [("06:00", JVal.str "x")])
    ∧ scheduleComplete (loadPlan (some sparseSchedulePlan) genDefault) = false :=
  ⟨rfl, rfl⟩

/-- C4 amended: `loadPlan` replaces the schedule with the full 18-key
empty template exactly when the stored schedule is missing, falsy, or
not of JS type `'object'`; a truthy object-typed schedule is kept
exactly as stored, so hour keys missing from it are not filled in. -/
theorem load_schedule_normalization_amended (fs : List (String × JVal)) (gen : Nat → String) :
    (∀ v, lookupAssoc fs "schedule" = some v → truthy v = true → typeofIsObject v = true →
        getField (loadPlan (some (.obj fs)) gen) "schedule" = some v)
    ∧ (goodSchedule (lookupAssoc fs "schedule") = false →
        getField (loadPlan (some (.obj fs)) gen) "schedule" = some scheduleTemplate) := by
  have hobj1 : isObj (ensureArrayField (.obj fs) "habits") = true :=
    isObj_ensureArrayField _ _ rfl
  have hobj2 : isObj (ensureArrayField (ensureArrayField (.obj fs) "habits") "todos") = true :=
    isObj_ensureArrayField _ _ hobj1
  have hobj3 : isObj (ensureArrayField (ensureArrayField (ensureArrayField (.obj fs) "habits") "todos") "topThree") = true :=
    isObj_ensureArrayField _ _ hobj2
  have hsched : getField (ensureArrayField (ensureArrayField (ensureArrayField (.obj fs) "habits") "todos") "topThree") "schedule"
      = lookupAssoc fs "schedule" := by
    rw [getField_ensureArrayField_ne _ _ _ (by decide),
        getField_ensureArrayField_ne _ _ _ (by decide),
        getField_ensureArrayField_ne _ _ _ (by decide)]
    rfl
  constructor
  · intro v hv ht hto
    rw [loadPlan_obj, getField_renderTopThreeState_ne _ _ _ (by decide)]
    unfold normalizeShape
    rw [ensureScheduleObj_good _ v (hsched.trans hv) ht hto]
    exact hsched.trans hv
  · intro hbad
    rw [loadPlan_obj, getField_renderTopThreeState_ne _ _ _ (by decide)]
    unfold normalizeShape
    exact getField_ensureScheduleObj_bad _ hobj3 (by rw [hsched]; exact hbad)

/-- C4 amended witness: a truthy object schedule (with a missing key)
is kept as stored; a string-valued schedule is replaced by the full
template. -/
theorem load_schedule_normalization_amended_witness :
    getField (loadPlan (some (.obj [("schedule", .obj [("06:00", JVal.str "x")])])) genDefault) "schedule"
      = some (.obj [("06:00", JVal.str "x")])
    ∧ getField (loadPlan (some (.obj [("schedule", JVal.str "oops")])) genDefault) "schedule"
      = some scheduleTemplate := by
  constructor
  · exact (load_schedule_normalization_amended [("schedule", .obj [("06:00", JVal.str "x")])] genDefault).1
      (.obj [("06:00", JVal.str "x")]) rfl rfl rfl
  · exact (load_schedule_normalization_amended [("schedule", JVal.str "oops")] genDefault).2 rfl

/-- C5: shape normalization inside `loadPlan` (script.js 341-365):
a stored `habits`, `todos` or `topThree` field that is not an array
(missing, object, null, …) is coerced to the empty array, and a
missing, falsy or non-`'object'` schedule is replaced by the full
18-key empty template.  For `habits` and `todos` (and the schedule)
this is also the final loaded value; the `topThree` empty array is
subsequently padded to the three synthesized slots by the render
step.  `loadPlan` is a total function, reflecting that no malformed
shape makes the source throw to its caller. -/
theorem load_shape_normalization (fs : List (String × JVal)) (gen : Nat → String) :
    (notArrayOpt (lookupAssoc fs "habits") = true →
        getField (normalizeShape (.obj fs)) "habits" = some (.arr [])
        ∧ getField (loadPlan (some (.obj fs)) gen) "habits" = some (.arr []))
    ∧ (notArrayOpt (lookupAssoc fs "todos") = true →
        getField (normalizeShape (.obj fs)) "todos" = some (.arr [])
        ∧ getField (loadPlan (some (.obj fs)) gen) "todos" = some (.arr []))
    ∧ (notArrayOpt (lookupAssoc fs "topThree") = true →
        getField (normalizeShape (.obj fs)) "topThree" = some (.arr []))
    ∧ (goodSchedule (lookupAssoc fs "schedule") = false →
        getField (normalizeShape (.obj fs)) "schedule" = some scheduleTemplate
        ∧ getField (loadPlan (some (.obj fs)) gen) "schedule" = some scheduleTemplate) := by
  have hobj1 : isObj (ensureArrayField (.obj fs) "habits") = true :=
    isObj_ensureArrayField _ _ rfl
  have hobj2 : isObj (ensureArrayField (ensureArrayField (.obj fs) "habits") "todos") = true :=
    isObj_ensureArrayField _ _ hobj1
  have hobj3 : isObj (ensureArrayField (ensureArrayField (ensureArrayField (.obj fs) "habits") "todos") "topThree") = true :=
    isObj_ensureArrayField _ _ hobj2
  refine ⟨?_, ?_, ?_, ?_⟩
  · intro hna
    have hnorm : getField (normalizeShape (.obj fs)) "habits" = some (.arr []) := by
      unfold normalizeShape
      rw [getField_ensureScheduleObj_ne _ _ (by decide),
          getField_ensureArrayField_ne _ _ _ (by decide),
          getField_ensureArrayField_ne _ _ _ (by decide)]
      exact getField_ensureArrayField_not_array _ _ rfl hna
    exact ⟨hnorm, by
      rw [loadPlan_obj, getField_renderTopThreeState_ne _ _ _ (by decide)]
      exact hnorm⟩
  · intro hna
    have hpres : getField (ensureArrayField (.obj fs) "habits") "todos"
        = lookupAssoc fs "todos" := by
      rw [getField_ensureArrayField_ne _ _ _ (by decide)]; rfl
    have hnorm : getField (normalizeShape (.obj fs)) "todos" = some (.arr []) := by
      unfold normalizeShape
      rw [getField_ensureScheduleObj_ne _ _ (by decide),
          getField_ensureArrayField_ne _ _ _ (by decide)]
      exact getField_ensureArrayField_not_array _ _ hobj1 (by rw [hpres]; exact hna)
    exact ⟨hnorm, by
      rw [loadPlan_obj, getField_renderTopThreeState_ne _ _ _ (by decide)]
      exact hnorm⟩
  · intro hna
    have hpres : getField (ensureArrayField (ensureArrayField (.obj fs) "habits") "todos") "topThree"
        = lookupAssoc fs "topThree" := by
      rw [getField_ensureArrayField_ne _ _ _ (by decide),
          getField_ensureArrayField_ne _ _ _ (by decide)]
      rfl
    unfold normalizeShape
    rw [getField_ensureScheduleObj_ne _ _ (by decide)]
    exact getField_ensureArrayField_not_array _ _ hobj2 (by rw [hpres]; exact hna)
  · intro hbad
    have hsched : getField (ensureArrayField (ensureArrayField (ensureArrayField (.obj fs) "habits") "todos") "topThree") "schedule"
        = lookupAssoc fs "schedule" := by
      rw [getField_ensureArrayField_ne _ _ _ (by decide),
          getField_ensureArrayField_ne _ _ _ (by decide),
          getField_ensureArrayField_ne _ _ _ (by decide)]
      rfl
    have hnorm : getField (normalizeShape (.obj fs)) "schedule" = some scheduleTemplate := by
      unfold normalizeShape
      exact getField_ensureScheduleObj_bad _ hobj3 (by rw [hsched]; exact hbad)
    exact ⟨hnorm, by
      rw [loadPlan_obj, getField_renderTopThreeState_ne _ _ _ (by decide)]
      exact hnorm⟩

/-- C5 witness: a stored value with `habits` an object, `todos` null,
`topThree` a number and `schedule` a string is fully normalized. -/
theorem load_shape_normalization_witness :
    getField (loadPlan (some (.obj [("habits", JVal.obj []), ("todos", JVal.null),
        ("topThree", JVal.num 0), ("schedule", JVal.str "legacy")])) genDefault) "habits"
      = some (.arr [])
    ∧ getField (loadPlan (some (.obj [("habits", JVal.obj []), ("todos", JVal.null),
        ("topThree", JVal.num 0), ("schedule", JVal.str "legacy")])) genDefault) "todos"
      = some (.arr [])
    ∧ getField (normalizeShape (.obj [("habits", JVal.obj []), ("todos", JVal.null),
        ("topThree", JVal.num 0), ("schedule", JVal.str "legacy")])) "topThree"
      = some (.arr [])
    ∧ getField (loadPlan (some (.obj [("habits", JVal.obj []), ("todos", JVal.null),
        ("topThree", JVal.num 0), ("schedule", JVal.str "legacy")])) genDefault) "schedule"
      = some scheduleTemplate := by
  have h := load_shape_normalization [("habits", JVal.obj []), ("todos", JVal.null),
    ("topThree", JVal.num 0), ("schedule", JVal.str "legacy")] genDefault
  exact ⟨(h.1 rfl).2, (h.2.1 rfl).2, h.2.2.1 rfl, (h.2.2.2 rfl).2⟩

/-!  ## Todos: delete and drag-and-drop reorder
(`bindTodoEvents`, script.js 646-655 and 677-699) -/

/-- A todo item as created by `addTodo`. -/
structure TodoItem where
  id : String
  text : String
  done : Bool
  order : Int
deriving DecidableEq

/-- The delete handler: `currentPlan.todos = currentPlan.todos.filter(t
=> t.id !== id)`.  Nothing else touches the remaining items. -/
def deleteTodo (todos : List TodoItem) (delId : String) : List TodoItem :=
  todos.filter (fun t => t.id != delId)

/-- `Array.prototype.splice(i, 1)` removal. -/
def spliceRemove {α : Type} (l : List α) (i : Nat) : List α :=
  l.take i ++ l.drop (i + 1)

/-- `Array.prototype.splice(i, 0, a)` insertion. -/
def spliceInsert {α : Type} (l : List α) (i : Nat) (a : α) : List α :=
  l.take i ++ a :: l.drop i

/-- The `todos.forEach((todo, index) => todo.order = index)` pass. -/
def renumberFrom : Nat → List TodoItem → List TodoItem
  | _, [] => []
  | n, t :: ts => { t with order := (n : Int) } :: renumberFrom (n + 1) ts

/-- `Array.prototype.findIndex`, as an `Option` (the handler checks
the `-1` sentinel before using the index). -/
def findIndex {α : Type} (p : α → Bool) : List α → Option Nat
  | [] => none
  | x :: xs => if p x then some 0 else (findIndex p xs).map (· + 1)

theorem findIndex_lt_length {α : Type} (p : α → Bool) :
    ∀ (l : List α) (i : Nat), findIndex p l = some i → i < l.length := by
  intro l
  induction l with
  | nil => intro i h; simp [findIndex] at h
  | cons x xs ih =>
      intro i h
      by_cases hp : p x = true
      · simp [findIndex, hp] at h
        simp [← h]
      · simp only [Bool.not_eq_true] at hp
        simp only [findIndex, hp, Bool.false_eq_true, if_false, Option.map_eq_some'] at h
        obtain ⟨j, hj, rfl⟩ := h
        have := ih j hj
        simp
        omega

/-- The drop handler: when the dragged id and the drop-target id are
distinct and both occur in `todos`, the dragged item is spliced out of
its position and spliced back in at the target's (pre-removal) index,
and then every `order` field is overwritten with the item's new array
index. -/
def dropReorder (todos : List TodoItem) (draggedId targetId : String) : List TodoItem :=
  if draggedId == targetId then todos
  else
    match findIndex (fun t => t.id == draggedId) todos,
          findIndex (fun t => t.id == targetId) todos with
    | some di, some ti =>
        match todos[di]? with
        | some draggedTodo => renumberFrom 0 (spliceInsert (spliceRemove todos di) ti draggedTodo)
        | none => todos
    | _, _ => todos

theorem renumberFrom_map_order (l : List TodoItem) :
    ∀ n : Nat, (renumberFrom n l).map TodoItem.order
      = (List.range' n l.length).map Int.ofNat := by
  induction l with
  | nil => intro n; simp [renumberFrom]
  | cons t ts ih =>
      intro n
      simp [renumberFrom, List.range'_succ, ih (n + 1)]

theorem renumberFrom_length (l : List TodoItem) :
    ∀ n : Nat, (renumberFrom n l).length = l.length := by
  induction l with
  | nil => intro n; simp [renumberFrom]
  | cons t ts ih => intro n; simp [renumberFrom, ih (n + 1)]

theorem spliceInsert_spliceRemove_length {α : Type} (l : List α) (i j : Nat) (a : α)
    (hi : i < l.length) :
    (spliceInsert (spliceRemove l i) j a).length = l.length := by
  simp [spliceInsert, spliceRemove]
  omega

/-- C3 counterexample: deleting the middle item of a three-item todo
list leaves the remaining `order` fields as `[0, 2]` — they are NOT
re-normalized to the contiguous range `0..1`. -/
theorem todo_delete_order_counterexample :
    (deleteTodo [⟨"a", "first", false, 0⟩, ⟨"b", "second", false, 1⟩,
        ⟨"c", "third", false, 2⟩] "b").map TodoItem.order = [0, 2]
    ∧ (deleteTodo [⟨"a", "first", false, 0⟩, ⟨"b", "second", false, 1⟩,
        ⟨"c", "third", false, 2⟩] "b").map TodoItem.order ≠ [0, 1] := by
  exact ⟨rfl, by decide⟩

/-- C3 amended: after a drag-and-drop reorder (distinct dragged and
target ids, both present), every `order` field is re-normalized to the
contiguous range `0..n-1` in the new array order, which is the new
visual order since rendering sorts by `order`; after a delete, the
remaining items are kept with their previous `order` fields untouched
(the result is a sublist of the original todos), so the relative order
is preserved but the `order` values are not re-normalized. -/
theorem todo_reorder_normalizes_delete_does_not (todos : List TodoItem)
    (draggedId targetId delId : String) (di ti : Nat)
    (hne : draggedId ≠ targetId)
    (hdi : findIndex (fun t => t.id == draggedId) todos = some di)
    (hti : findIndex (fun t => t.id == targetId) todos = some ti) :
    (dropReorder todos draggedId targetId).map TodoItem.order
      = (List.range todos.length).map Int.ofNat
    ∧ (deleteTodo todos delId).Sublist todos := by
  constructor
  · have hdin : di < todos.length := findIndex_lt_length _ todos di hdi
    obtain ⟨draggedTodo, hget⟩ : ∃ a, todos[di]? = some a :=
      ⟨todos[di], List.getElem?_eq_getElem hdin⟩
    have hbeq : (draggedId == targetId) = false := by
      simp [hne]
    unfold dropReorder
    rw [hbeq]
    simp only [Bool.false_eq_true, if_false, hdi, hti, hget]
    rw [renumberFrom_map_order, List.range_eq_range',
        spliceInsert_spliceRemove_length todos di ti draggedTodo hdin]
  · exact List.filter_sublist _

/-- C3 amended witness: dragging item `c` onto item `a` in a
three-item list yields orders `[0, 1, 2]`; the delete half at the same
list is a sublist fact. -/
theorem todo_reorder_normalizes_witness :
    (dropReorder [⟨"a", "first", false, 0⟩, ⟨"b", "second", false, 1⟩,
        ⟨"c", "third", false, 2⟩] "c" "a").map TodoItem.order = [0, 1, 2]
    ∧ (deleteTodo [⟨"a", "first", false, 0⟩, ⟨"b", "second", false, 1⟩,
        ⟨"c", "third", false, 2⟩] "b").Sublist
        [⟨"a", "first", false, 0⟩, ⟨"b", "second", false, 1⟩, ⟨"c", "third", false, 2⟩] := by
  have h := todo_reorder_normalizes_delete_does_not
    [⟨"a", "first", false, 0⟩, ⟨"b", "second", false, 1⟩, ⟨"c", "third", false, 2⟩]
    "c" "a" "b" 2 0 (by decide) (by decide) (by decide)
  exact ⟨h.1, h.2⟩

/-!  ## Habits (`renderHabits` filter 845-852, `handleHabitAction`
990-1008, `createHabit` 1010-1066) -/

/-- A habit as created by `createHabit`.  `repeat` is a reserved word
in Lean, hence `repeatFlag`.  `completions` maps date keys to one of
`completed`, `not_done`, `skipped`. -/
structure Habit where
  id : String
  title : String
  description : String
  color : String
  repeatFlag : Bool
  reminder : Bool
  goal : Bool
  frequency : String
  days : List Nat
  createdAt : String
  completions : List (String × String)
deriving DecidableEq

/-- A top-three slot. -/
structure TopSlot where
  id : String
  text : String
  done : Bool
deriving DecidableEq

/-- The meals record. -/
structure Meals where
  breakfast : String
  lunch : String
  dinner : String
deriving DecidableEq

/-- The normalized in-memory `currentPlan` that the UI event handlers
operate on. -/
structure PlanState where
  topThree : List TopSlot
  todos : List TodoItem
  schedule : List (String × String)
  notes : String
  meals : Meals
  water : Int
  habits : List Habit
deriving DecidableEq

/-- The `todaysHabits` filter predicate (renderHabits, and the
identical copy in `updateCompletionStatus`): a habit whose `days` is
absent (legacy data, `none` here) or empty is scheduled every day;
otherwise it is scheduled iff today's weekday number is contained in
`days`. -/
def scheduledToday : Option (List Nat) → Nat → Bool
  | none, _ => true
  | some l, w => if l.length == 0 then true else l.contains w

/-- C8: a habit with an absent or empty `days` set is scheduled on
every weekday; a habit with nonempty `days` is scheduled exactly when
the current weekday is a member of `days`; in particular `days =
[1,3,5]` schedules the habit exactly on weekdays 1, 3 and 5. -/
theorem habit_scheduled_iff (days : List Nat) (w : Nat) :
    scheduledToday none w = true
    ∧ scheduledToday (some []) w = true
    ∧ (days ≠ [] → (scheduledToday (some days) w = true ↔ w ∈ days))
    ∧ (scheduledToday (some [1, 3, 5]) w = true ↔ (w = 1 ∨ w = 3 ∨ w = 5)) := by
  refine ⟨rfl, rfl, ?_, ?_⟩
  · intro hne
    cases days with
    | nil => exact absurd rfl hne
    | cons d ds => simp [scheduledToday]
  · simp [scheduledToday]

/-- C8 witness. -/
theorem habit_scheduled_iff_witness :
    scheduledToday none 4 = true
    ∧ scheduledToday (some []) 4 = true
    ∧ (scheduledToday (some [2, 4]) 4 = true ↔ 4 ∈ [2, 4])
    ∧ (scheduledToday (some [1, 3, 5]) 4 = true ↔ (4 = 1 ∨ 4 = 3 ∨ 4 = 5)) := by
  have h := habit_scheduled_iff [2, 4] 4
  exact ⟨h.1, h.2.1, h.2.2.1 (by decide), h.2.2.2⟩

/-- The habit-creation form values read from the modal. -/
structure HabitForm where
  title : String
  description : String
  color : String
  repeatChecked : Bool
  reminderChecked : Bool
  goalChecked : Bool
  selectedDays : List Nat
  frequency : String
deriving DecidableEq

/-- `String.prototype.trim()`: drop leading and trailing whitespace
characters. -/
def jsTrim (s : String) : String :=
  String.mk (((s.data.dropWhile Char.isWhitespace).reverse.dropWhile Char.isWhitespace).reverse)

/-- `PlannerManager.createHabit`.  The title and description inputs
are trimmed (`.value.trim()`); an empty trimmed title short-circuits
with the inline notification `announceStatus('Please enter a habit
title')` and no state change and no save; otherwise the new habit is
pushed and a save is triggered.  Returns (new plan, save triggered,
announced message). -/
def createHabit (plan : PlanState) (form : HabitForm) (newId nowIso : String) :
    PlanState × Bool × String :=
  let title := jsTrim form.title
  if title = "" then (plan, false, "Please enter a habit title")
  else
    let habit : Habit :=
      { id := newId, title := title, description := jsTrim form.description,
        color := form.color, repeatFlag := form.repeatChecked,
        reminder := form.reminderChecked, goal := form.goalChecked,
        frequency := form.frequency, days := form.selectedDays,
        createdAt := nowIso, completions := [] }
    ({ plan with habits := plan.habits ++ [habit] }, true, "Habit created successfully")

/-- C9: submitting habit creation with a title that is empty after
trimming is rejected with the inline notification, returns the plan
completely unchanged (every field exactly as before) and triggers no
save. -/
theorem create_habit_empty_title_rejected (plan : PlanState) (form : HabitForm)
    (newId nowIso : String) (h : jsTrim form.title = "") :
    createHabit plan form newId nowIso = (plan, false, "Please enter a habit title") := by
  unfold createHabit
  simp [h]

/-- C9 witness: a whitespace-only title is rejected without touching a
concrete nonempty plan. -/
theorem create_habit_empty_title_rejected_witness :
    createHabit
      ⟨[], [⟨"t1", "walk", false, 0⟩], [], "note", ⟨"", "", ""⟩, 2, []⟩
      ⟨"   ", "desc", "#fff", false, false, false, [1], "daily"⟩ "newid" "2024-01-02"
    = (⟨[], [⟨"t1", "walk", false, 0⟩], [], "note", ⟨"", "", ""⟩, 2, []⟩,
        false, "Please enter a habit title") :=
  create_habit_empty_title_rejected _ _ "newid" "2024-01-02" (by decide)

/-!  ## `handleHabitAction` -/

/-- The three completion actions wired to the habit buttons. -/
inductive HabitAction where
  | yes
  | no
  | skip
deriving DecidableEq

/-- Status string written by each action. -/
def actionStatus : HabitAction → String
  | .yes => "completed"
  | .no => "not_done"
  | .skip => "skipped"

/-- In-place mutation of the first list element satisfying the
predicate (the effect of `find` followed by mutation of the found
object). -/
def updateFirst {α : Type} (p : α → Bool) (f : α → α) : List α → List α
  | [] => []
  | x :: xs => if p x then f x :: xs else x :: updateFirst p f xs

/-- `PlannerManager.handleHabitAction(habitId, action)`: the first
habit with the given id (if any) gets its `completions[today]` set to
the action's status and a save is triggered; an unknown id returns at
once with no state change and no save.  Returns (new plan, save
triggered). -/
def handleHabitAction (plan : PlanState) (habitId : String) (a : HabitAction)
    (today : String) : PlanState × Bool :=
  if plan.habits.any (fun h => h.id == habitId) then
    let upd := updateFirst (fun h => h.id == habitId)
      (fun h => { h with completions := setAssoc h.completions today (actionStatus a) }) plan.habits
    ({ plan with habits := upd }, true)
  else (plan, false)

theorem updateFirst_spec {α : Type} (p : α → Bool) (f : α → α) :
    ∀ (l : List α) (i : Nat) (x : α), l[i]? = some x → p x = true →
      (∀ j y, j < i → l[j]? = some y → p y = false) →
      (updateFirst p f l)[i]? = some (f x)
      ∧ ∀ j, j ≠ i → (updateFirst p f l)[j]? = l[j]? := by
  intro l
  induction l with
  | nil => intro i x hx; simp at hx
  | cons hd tl ih =>
      intro i x hx hp hfirst
      cases i with
      | zero =>
          simp only [List.getElem?_cons_zero, Option.some.injEq] at hx
          subst hx
          constructor
          · simp [updateFirst, hp]
          · intro j hj
            cases j with
            | zero => exact absurd rfl hj
            | succ j' => simp [updateFirst, hp]
      | succ i' =>
          have hhd : p hd = false := hfirst 0 hd (Nat.succ_pos i') (by simp)
          simp only [List.getElem?_cons_succ] at hx
          have hfirst' : ∀ j y, j < i' → tl[j]? = some y → p y = false := by
            intro j y hj hy
            exact hfirst (j + 1) y (Nat.succ_lt_succ hj) (by simpa using hy)
          obtain ⟨h1, h2⟩ := ih i' x hx hp hfirst'
          constructor
          · simp [updateFirst, hhd, h1]
          · intro j hj
            cases j with
            | zero => simp [updateFirst, hhd]
            | succ j' =>
                have : j' ≠ i' := by omega
                simp [updateFirst, hhd, h2 j' this]

/-- C10: invoking a yes/no/skip habit action with an id that occurs in
no habit leaves the plan exactly unchanged and triggers no save; with
an id whose first occurrence is at index `i`, a save is triggered,
every non-habits field of the plan is unchanged, every habit other
than index `i` is unchanged, and habit `i` changes only by its
`completions` entry for today's date key, which becomes the action's
status while every other date key keeps its previous value. -/
theorem habit_action_frame (plan : PlanState) (habitId : String) (a : HabitAction)
    (today : String) :
    ((∀ h ∈ plan.habits, h.id ≠ habitId) →
        handleHabitAction plan habitId a today = (plan, false))
    ∧ (∀ (i : Nat) (h : Habit), plan.habits[i]? = some h → h.id = habitId →
        (∀ (j : Nat) (hj : Habit), j < i → plan.habits[j]? = some hj → hj.id ≠ habitId) →
        (handleHabitAction plan habitId a today).2 = true
        ∧ (handleHabitAction plan habitId a today).1.topThree = plan.topThree
        ∧ (handleHabitAction plan habitId a today).1.todos = plan.todos
        ∧ (handleHabitAction plan habitId a today).1.schedule = plan.schedule
        ∧ (handleHabitAction plan habitId a today).1.notes = plan.notes
        ∧ (handleHabitAction plan habitId a today).1.meals = plan.meals
        ∧ (handleHabitAction plan habitId a today).1.water = plan.water
        ∧ (handleHabitAction plan habitId a today).1.habits[i]?
            = some { h with completions := setAssoc h.completions today (actionStatus a) }
        ∧ (∀ j, j ≠ i → (handleHabitAction plan habitId a today).1.habits[j]?
            = plan.habits[j]?)
        ∧ lookupAssoc (setAssoc h.completions today (actionStatus a)) today
            = some (actionStatus a)
        ∧ (∀ k, k ≠ today → lookupAssoc (setAssoc h.completions today (actionStatus a)) k
            = lookupAssoc h.completions k)) := by
  constructor
  · intro hnone
    have hany : plan.habits.any (fun h => h.id == habitId) = false := by
      simp only [List.any_eq_false]
      intro h hmem
      simpa using hnone h hmem
    unfold handleHabitAction
    simp [hany]
  · intro i h hget hid hfirst
    have hmem : h ∈ plan.habits := by
      have := List.getElem?_eq_some_iff.mp hget
      obtain ⟨hlt, hEq⟩ := this
      exact hEq ▸ List.getElem_mem hlt
    have hany : plan.habits.any (fun h => h.id == habitId) = true :=
      List.any_eq_true.mpr ⟨h, hmem, by simp [hid]⟩
    have hspec := updateFirst_spec (fun h => h.id == habitId)
      (fun h => { h with completions := setAssoc h.completions today (actionStatus a) })
      plan.habits i h hget (by simp [hid])
      (by intro j y hj hy; simpa using hfirst j y hj hy)
    have hres : handleHabitAction plan habitId a today = ({ plan with habits := updateFirst (fun h => h.id == habitId) (fun h => { h with completions := setAssoc h.completions today (actionStatus a) }) plan.habits }, true) := by
      simp [handleHabitAction, hany]
    rw [hres]
    exact ⟨rfl, rfl, rfl, rfl, rfl, rfl, rfl, hspec.1, hspec.2,
      lookupAssoc_setAssoc_self _ _ _,
      fun k hk => lookupAssoc_setAssoc_ne _ _ _ _ (Ne.symm hk)⟩

/-- C10 witness: acting on an unknown id changes nothing; marking the
second of two habits `yes` updates exactly its completions for the day. -/
theorem habit_action_frame_witness :
    handleHabitAction
      ⟨[], [], [], "", ⟨"", "", ""⟩, 0,
        [⟨"h1", "run", "", "", false, false, false, "daily", [], "c", []⟩]⟩
      "nope" HabitAction.yes "2024-01-02"
    = (⟨[], [], [], "", ⟨"", "", ""⟩, 0,
        [⟨"h1", "run", "", "", false, false, false, "daily", [], "c", []⟩]⟩, false)
    ∧ (handleHabitAction
        ⟨[], [], [], "", ⟨"", "", ""⟩, 0,
          [⟨"h1", "run", "", "", false, false, false, "daily", [], "c", []⟩,
           ⟨"h2", "read", "", "", false, false, false, "daily", [], "c", []⟩]⟩
        "h2" HabitAction.yes "2024-01-02").1.habits[1]?
      = some ⟨"h2", "read", "", "", false, false, false, "daily", [], "c",
          [("2024-01-02", "completed")]⟩ := by
  constructor
  · exact (habit_action_frame
      ⟨[], [], [], "", ⟨"", "", ""⟩, 0,
        [⟨"h1", "run", "", "", false, false, false, "daily", [], "c", []⟩]⟩
      "nope" HabitAction.yes "2024-01-02").1 (by decide)
  · exact (habit_action_frame
      ⟨[], [], [], "", ⟨"", "", ""⟩, 0,
        [⟨"h1", "run", "", "", false, false, false, "daily", [], "c", []⟩,
         ⟨"h2", "read", "", "", false, false, false, "daily", [], "c", []⟩]⟩
      "h2" HabitAction.yes "2024-01-02").2 1
      ⟨"h2", "read", "", "", false, false, false, "daily", [], "c", []⟩
      (by decide) (by decide)
      (by
        intro j hj hlt hget
        have hj0 : j = 0 := by omega
        subst hj0
        simp only [List.getElem?_cons_zero, Option.some.injEq] at hget
        rw [← hget]
        decide) |>.2.2.2.2.2.2.2.1

end DailyPlanner
